import Mathlib

/-!
Verification of the AliceVision robust-estimation core (LO-RANSAC) and the
image-processing utility, shallowly embedded from
`src/aliceVision/robustEstimation/loRansac_test.cpp` and
`src/software/utils/main_imageProcessing.cpp`.  Machine real arithmetic is
idealised as exact rational arithmetic `ℚ`.
-/

namespace AliceVisionProof

/-! ### LineKernelLoRansac (loRansac_test.cpp)

The kernel's weighting policy and least-squares entry point, embedded from
`LineKernelLoRansac::computeWeights` and `LineKernelLoRansac::FitLS`.
The per-observation residual `Error(index, model)` is declared by the base
`LineKernel` (outside this repository slice), so it enters as a function
parameter.  -/

/-- The default value of the `eps` argument of `computeWeights` (`0.001`). -/
def defaultEps : ℚ := 1 / 1000

/-- Embeds `LineKernelLoRansac::computeWeights`: for each inlier index `idx`
the weight is `1 / max(eps, Error(idx, model))^2`. -/
def computeWeights {M : Type} (Error : Nat → M → ℚ) (model : M) (inliers : List Nat)
    (eps : ℚ) : List ℚ :=
  inliers.map fun idx => 1 / max eps (Error idx model) ^ 2

/-- `LineKernelLoRansac::MINIMUM_SAMPLES` (= 2). -/
def MINIMUM_SAMPLES : Nat := 2

/-- `LineKernelLoRansac::MINIMUM_LSSAMPLES` (= 2). -/
def MINIMUM_LSSAMPLES : Nat := 2

/-- Embeds `LineKernelLoRansac::FitLS`.  The body asserts
`samples.size() >= MINIMUM_SAMPLES` and then delegates to the line solver
(`LineSolver::SolveWeightedLS` / `LineSolver::Solve`, outside this slice,
abstracted as `solve`).  The assertion-failure branch is modelled as `none`. -/
def FitLS {M : Type} (solve : List Nat → Option (List ℚ) → M)
    (samples : List Nat) (weights : Option (List ℚ)) : Option M :=
  if MINIMUM_SAMPLES ≤ samples.length then some (solve samples weights) else none

/-! ### The LO-RANSAC engine

The engine itself (`LORansac.hpp`, `ScoreEvaluator.hpp`) is not part of this
repository slice; only its specification and its test driver are.  The
definitions below are therefore modelled from the spec (sections 4.2–4.5, 6). -/

/-- Modelled from the spec: the caller-owned random-generator state
(section 4.2).  `LORansac.hpp` is missing from the slice; the generator is a
sequential stream of draws consumed one by one, with no hidden state. -/
structure Rng where
  stream : Nat → Nat
  pos : Nat

/-- Modelled from the spec: one sequential draw in `[0, bound)` advancing the
generator state. -/
def Rng.next (g : Rng) (bound : Nat) : Nat × Rng :=
  (g.stream g.pos % bound, ⟨g.stream, g.pos + 1⟩)

/-- Swap the entries at positions `i` and `j` of a list (helper for the
partial Fisher–Yates sampler). -/
def swapList (l : List Nat) (i j : Nat) : List Nat :=
  match l[i]?, l[j]? with
  | some a, some b => (l.set i b).set j a
  | _, _ => l

/-- Modelled from the spec: the partial Fisher–Yates pass of the Random
Sampler (section 4.2), one of the spec's two suggested implementations.
`c` positions starting at `i` are fixed, each by swapping with a uniformly
drawn position at or after it. -/
def fyAux : Nat → Nat → List Nat → Rng → List Nat × Rng
  | 0, _, l, g => (l, g)
  | Nat.succ c, i, l, g =>
    let r := g.next (l.length - i)
    fyAux c (i + 1) (swapList l i (i + r.1)) r.2

/-- Modelled from the spec: draw `k` distinct indices from `[0, N)` without
replacement via partial Fisher–Yates (section 4.2); total when `k ≤ N`. -/
def sampleIndices (N k : Nat) (g : Rng) : List Nat × Rng :=
  let p := fyAux k 0 (List.range N) g
  (p.1.take k, p.2)

/-- Modelled from the spec: the engine's error taxonomy (section 7);
`insufficientData` is the fatal precondition failure, `noValidModel` covers
the open question of a run in which every sample was degenerate. -/
inductive EstError where
  | insufficientData
  | noValidModel
deriving DecidableEq

/-- Modelled from the spec: `Sample(N, k, rng)` of section 4.2 — fails with
`InsufficientDataError` if `k > N`, otherwise draws `k` distinct indices. -/
def Sample (N k : Nat) (g : Rng) : Except EstError (List Nat × Rng) :=
  if N < k then .error .insufficientData else .ok (sampleIndices N k g)

/-- Modelled from the spec: the Problem Kernel interface (section 4.1) with
its five operations and two sample-size constants.  Residuals and weights use
`ℚ` in place of machine reals. -/
structure Kernel (M : Type) where
  minSamples : Nat
  minLSSamples : Nat
  fitMinimal : List Nat → List M
  fitLS : List Nat → Option (List ℚ) → M
  Error : Nat → M → ℚ
  ComputeWeights : M → List Nat → ℚ → List ℚ

/-- Modelled from the spec: the Score Evaluator's inlier set (section 4.3),
exactly the indices of `[0, N)` whose residual is at most the threshold. -/
def inliersOf {M : Type} (ker : Kernel M) (N : Nat) (τ : ℚ) (m : M) : List Nat :=
  (List.range N).filter fun i => decide (ker.Error i m ≤ τ)

/-- Modelled from the spec: the IRLS rounds of Local Optimization
(section 4.5) — compute weights, weighted refit, recompute the inlier set,
and stop early at a fixed point of the inlier set or after a bounded round
count. -/
def irlsRounds {M : Type} (ker : Kernel M) (N : Nat) (τ eps : ℚ) :
    Nat → M → List Nat → M × List Nat
  | 0, m, inl => (m, inl)
  | Nat.succ r, m, inl =>
    let w := ker.ComputeWeights m inl eps
    let m2 := ker.fitLS inl (some w)
    let inl2 := inliersOf ker N τ m2
    if inl2 = inl then (m2, inl2) else irlsRounds ker N τ eps r m2 inl2

/-- Modelled from the spec: the Local Optimization step (section 4.5) —
skipped when the seed inlier set is smaller than `MINIMUM_LSSAMPLES`, and the
refined model replaces the trial-best only if its re-scored quality is not
worse. -/
def localOptimize {M : Type} (ker : Kernel M) (N : Nat) (τ eps : ℚ) (rounds : Nat)
    (m : M) (inl : List Nat) : M × List Nat :=
  if inl.length < ker.minLSSamples then (m, inl)
  else
    let p := irlsRounds ker N τ eps rounds m inl
    if inl.length ≤ p.2.length then p else (m, inl)

/-- Modelled from the spec: the score comparison of section 4.4 — a candidate
score beats the current best only if strictly greater (ties keep the earlier
hypothesis); any candidate beats an absent best. -/
def better {M : Type} (best : Option (M × List Nat)) (score : Nat) : Bool :=
  match best with
  | none => true
  | some b => b.2.length < score

/-- Modelled from the spec: step 3 of the outer loop (section 4.4) — score a
candidate; if it beats the best it becomes the trial-best and is locally
optimized, and the refined result replaces the best if still the best. -/
def considerCandidate {M : Type} (ker : Kernel M) (N : Nat) (τ eps : ℚ) (rounds : Nat)
    (best : Option (M × List Nat)) (m : M) : Option (M × List Nat) :=
  let inl := inliersOf ker N τ m
  if better best inl.length then
    let p := localOptimize ker N τ eps rounds m inl
    if better best p.2.length then some p else best
  else best

/-- Modelled from the spec: the outer loop of section 4.4, bounded by the
`maxIterations` fuel.  The adaptive trial count
`T = log(1-p) / log(1-ε^m)` is real-valued, so it is abstracted as a
function `reqIters` from the current best inlier count to the required
number of trials; the loop stops once the iteration counter reaches it. -/
def loLoop {M : Type} (ker : Kernel M) (N : Nat) (τ eps : ℚ) (rounds : Nat)
    (reqIters : Nat → Nat) :
    Nat → Nat → Rng → Option (M × List Nat) → Option (M × List Nat) × Rng
  | 0, _, g, best => (best, g)
  | Nat.succ fuel, iter, g, best =>
    if reqIters (match best with | none => 0 | some b => b.2.length) ≤ iter then
      (best, g)
    else
      let s := sampleIndices N ker.minSamples g
      let best2 := (ker.fitMinimal s.1).foldl (considerCandidate ker N τ eps rounds) best
      loLoop ker N τ eps rounds reqIters fuel (iter + 1) s.2 best2

/-- Modelled from the spec: the engine entry point `estimate` of section 6 —
fails with `InsufficientDataError` when `N < kernel.MINIMUM_SAMPLES`,
otherwise runs the outer loop from a fresh state and returns the best
hypothesis's model and inlier set. -/
def estimate {M : Type} (ker : Kernel M) (N : Nat) (τ : ℚ) (g : Rng)
    (maxIterations : Nat) (reqIters : Nat → Nat) (eps : ℚ) (rounds : Nat) :
    Except EstError (M × List Nat) :=
  if N < ker.minSamples then .error .insufficientData
  else
    match (loLoop ker N τ eps rounds reqIters maxIterations 0 g none).1 with
    | none => .error .noValidModel
    | some p => .ok p

/-- The invariant carried by the outer loop: any stored best hypothesis keeps
exactly the Score Evaluator's inlier set of its model. -/
def InlInv {M : Type} (ker : Kernel M) (N : Nat) (τ : ℚ) :
    Option (M × List Nat) → Prop
  | none => True
  | some p => p.2 = inliersOf ker N τ p.1

/-! ### Image processing (main_imageProcessing.cpp)

`processImage` applies a fixed chain of optionally-enabled filter stages.
The filter bodies themselves are OpenImageIO / OpenCV library calls outside
this repository, so they enter as opaque image transformations collected in
`ExternalOps`; the guard conditions, the stage order, and the RGBA/BGR
conversions around the OpenCV stages are embedded from the source. -/

/-- A pixel of `image::Image<image::RGBAfColor>`, float channels idealised
as `ℚ`. -/
structure RGBAfColor where
  r : ℚ
  g : ℚ
  b : ℚ
  a : ℚ
deriving DecidableEq

/-- An RGBA image: dimensions plus a total pixel map (row, column). -/
structure Image where
  width : Nat
  height : Nat
  pix : Nat → Nat → RGBAfColor

/-- A 3-channel `cv::Mat` in BGR channel order, as a total pixel map
(row, column) to `(b, g, r)`. -/
structure CvMatBGR where
  pix : Nat → Nat → ℚ × ℚ × ℚ

/-- Embeds `imageRGBAToCvMatBGR`: each pixel becomes its `(b, g, r)`
channels; the alpha channel is dropped. -/
def imageRGBAToCvMatBGR (img : Image) : CvMatBGR :=
  ⟨fun row col => ((img.pix row col).b, (img.pix row col).g, (img.pix row col).r)⟩

/-- Embeds `cvMatBGRToImageRGBA`: for every in-bounds pixel of the output
image, the BGR channels come from the matrix and the alpha channel is the one
the output image already held at that position; out-of-bounds pixels are not
written. -/
def cvMatBGRToImageRGBA (matIn : CvMatBGR) (imageOut : Image) : Image :=
  { imageOut with
    pix := fun row col =>
      if row < imageOut.height ∧ col < imageOut.width then
        ⟨(matIn.pix row col).2.2, (matIn.pix row col).2.1, (matIn.pix row col).1,
          (imageOut.pix row col).a⟩
      else imageOut.pix row col }

/-- The fields of `ProcessingParams` consulted by `processImage`, with the
float fields idealised as `ℚ`. -/
structure ProcessingParams where
  scaleFactor : ℚ
  contrast : ℚ
  medianFilter : Int
  sharpenEnabled : Bool
  bilateralEnabled : Bool
  claheEnabled : Bool
  fillHoles : Bool
deriving DecidableEq

/-- The default-constructed `ProcessingParams` (`scaleFactor` 1.0,
`contrast` 1.0, `medianFilter` 0, all filters disabled, `fillHoles` false). -/
def defaultParams : ProcessingParams :=
  { scaleFactor := 1
    contrast := 1
    medianFilter := 0
    sharpenEnabled := false
    bilateralEnabled := false
    claheEnabled := false
    fillHoles := false }

/-- The external library calls made by the filter stages, abstracted: OIIO
`resize`/`contrast_remap`/`median_filter`/`unsharp_mask`/`fillholes_pushpull`
act on whole RGBA images, while OpenCV `bilateralFilter` and the
Lab-roundtrip CLAHE pipeline act on 3-channel BGR matrices. -/
structure ExternalOps where
  resizeOp : ProcessingParams → Image → Image
  contrastOp : ProcessingParams → Image → Image
  medianOp : ProcessingParams → Image → Image
  sharpenOp : ProcessingParams → Image → Image
  bilateralOp : ProcessingParams → CvMatBGR → CvMatBGR
  claheOp : ProcessingParams → CvMatBGR → CvMatBGR
  fillHolesOp : Image → Image

/-- Embeds `processImage`: the stage chain with its guard conditions
(`scaleFactor != 1.0f`, `contrast != 1.0f`, `medianFilter >= 3`,
`sharpen.enabled`, `bilateralFilter.enabled`, `claheFilter.enabled`,
`fillHoles`), in source order.  The two OpenCV stages convert to a BGR
matrix, apply the abstracted filter, and convert back through
`cvMatBGRToImageRGBA` on the current image. -/
def processImage (ops : ExternalOps) (p : ProcessingParams) (img : Image) : Image :=
  let i1 := if p.scaleFactor ≠ 1 then ops.resizeOp p img else img
  let i2 := if p.contrast ≠ 1 then ops.contrastOp p i1 else i1
  let i3 := if 3 ≤ p.medianFilter then ops.medianOp p i2 else i2
  let i4 := if p.sharpenEnabled then ops.sharpenOp p i3 else i3
  let i5 :=
    if p.bilateralEnabled then
      cvMatBGRToImageRGBA (ops.bilateralOp p (imageRGBAToCvMatBGR i4)) i4
    else i4
  let i6 :=
    if p.claheEnabled then
      cvMatBGRToImageRGBA (ops.claheOp p (imageRGBAToCvMatBGR i5)) i5
    else i5
  if p.fillHoles then ops.fillHolesOp i6 else i6

/-! ### Concrete fixtures used by the witness theorems -/

/-- Data points of a tiny constant-fitting kernel (observation `i` is the
rational `testPts[i]`; a model is a single rational `c` and the residual is
`|testPts[i] - c|`). -/
def testPts : List ℚ := [0, 0, 5, 0]

/-- Residual of the tiny constant-fitting kernel: 0 when the observation
equals the model constant, 1 otherwise. -/
def testError (i : Nat) (c : ℚ) : ℚ := if testPts.getD i 0 = c then 0 else 1

/-- A tiny concrete instance of the Problem Kernel interface, fitting a
constant to `testPts`. -/
def testKernel : Kernel ℚ :=
  { minSamples := 1
    minLSSamples := 1
    fitMinimal := fun s => match s with | [] => [] | i :: _ => [testPts.getD i 0]
    fitLS := fun inl _ => testPts.getD (inl.headD 0) 0
    Error := testError
    ComputeWeights := fun c inl e => computeWeights testError c inl e }

/-- Equality of `Except` values is decidable when both component types have
decidable equality (needed to evaluate concrete engine runs). -/
instance {E A : Type} [DecidableEq E] [DecidableEq A] : DecidableEq (Except E A) :=
  fun x y =>
    match x, y with
    | .ok a, .ok b =>
      if h : a = b then isTrue (by rw [h])
      else isFalse (by intro hh; cases hh; exact h rfl)
    | .error a, .error b =>
      if h : a = b then isTrue (by rw [h])
      else isFalse (by intro hh; cases hh; exact h rfl)
    | .ok _, .error _ => isFalse (by intro hh; cases hh)
    | .error _, .ok _ => isFalse (by intro hh; cases hh)

/-- A concrete generator state: the all-zeros stream at position 0. -/
def testRng : Rng := ⟨fun _ => 0, 0⟩

/-- Concrete external filter operations for the witnesses; the BGR-matrix
operations genuinely alter the colour channels. -/
def testOps : ExternalOps :=
  { resizeOp := fun _ i => i
    contrastOp := fun _ i => i
    medianOp := fun _ i => i
    sharpenOp := fun _ i => i
    bilateralOp := fun _ m =>
      ⟨fun row col => ((m.pix row col).1 + 1, (m.pix row col).2.1, (m.pix row col).2.2)⟩
    claheOp := fun _ m =>
      ⟨fun row col => ((m.pix row col).1, (m.pix row col).2.1 + 1, (m.pix row col).2.2)⟩
    fillHolesOp := fun i => i }

/-- A concrete 2×2 test image. -/
def testImg : Image := ⟨2, 2, fun _ _ => ⟨1/2, 1/3, 1/4, 3/4⟩⟩

/-- A concrete BGR test matrix. -/
def testMat : CvMatBGR := ⟨fun _ _ => (1, 2, 3)⟩

/-- `defaultParams` with the two OpenCV stages enabled, for the alpha-frame
witness. -/
def testCvParams : ProcessingParams :=
  { defaultParams with bilateralEnabled := true, claheEnabled := true }

/-! ### Helper lemmas -/

/-- Membership in the Score Evaluator's inlier set. -/
lemma mem_inliersOf {M : Type} (ker : Kernel M) (N : Nat) (τ : ℚ) (m : M) (i : Nat) :
    i ∈ inliersOf ker N τ m ↔ i < N ∧ ker.Error i m ≤ τ := by
  simp [inliersOf, List.mem_filter, List.mem_range]

/-- The IRLS rounds keep the stored inlier set equal to the Score Evaluator's
inlier set of the stored model. -/
lemma irlsRounds_inv {M : Type} (ker : Kernel M) (N : Nat) (τ eps : ℚ) (r : Nat)
    (m : M) (inl : List Nat) (h : inl = inliersOf ker N τ m) :
    (irlsRounds ker N τ eps r m inl).2
      = inliersOf ker N τ (irlsRounds ker N τ eps r m inl).1 := by
  induction r generalizing m inl with
  | zero => simpa [irlsRounds] using h
  | succ r ih =>
    simp only [irlsRounds]
    split
    · rfl
    · exact ih _ _ rfl

/-- Local optimization keeps the stored inlier set equal to the Score
Evaluator's inlier set of the stored model. -/
lemma localOptimize_inv {M : Type} (ker : Kernel M) (N : Nat) (τ eps : ℚ)
    (rounds : Nat) (m : M) (inl : List Nat) (h : inl = inliersOf ker N τ m) :
    (localOptimize ker N τ eps rounds m inl).2
      = inliersOf ker N τ (localOptimize ker N τ eps rounds m inl).1 := by
  simp only [localOptimize]
  split
  · exact h
  · split
    · exact irlsRounds_inv ker N τ eps rounds m inl h
    · exact h

/-- Considering one candidate preserves the best-hypothesis invariant. -/
lemma considerCandidate_inv {M : Type} (ker : Kernel M) (N : Nat) (τ eps : ℚ)
    (rounds : Nat) (best : Option (M × List Nat)) (m : M) (h : InlInv ker N τ best) :
    InlInv ker N τ (considerCandidate ker N τ eps rounds best m) := by
  simp only [considerCandidate]
  split
  · split
    · exact localOptimize_inv ker N τ eps rounds m _ rfl
    · exact h
  · exact h

/-- Folding candidate consideration over a model list preserves the
best-hypothesis invariant. -/
lemma foldl_candidates_inv {M : Type} (ker : Kernel M) (N : Nat) (τ eps : ℚ)
    (rounds : Nat) (l : List M) (best : Option (M × List Nat))
    (h : InlInv ker N τ best) :
    InlInv ker N τ (l.foldl (considerCandidate ker N τ eps rounds) best) := by
  induction l generalizing best with
  | nil => exact h
  | cons x xs ih => exact ih _ (considerCandidate_inv ker N τ eps rounds best x h)

/-- The outer loop preserves the best-hypothesis invariant. -/
lemma loLoop_inv {M : Type} (ker : Kernel M) (N : Nat) (τ eps : ℚ) (rounds : Nat)
    (reqIters : Nat → Nat) (fuel iter : Nat) (g : Rng)
    (best : Option (M × List Nat)) (h : InlInv ker N τ best) :
    InlInv ker N τ (loLoop ker N τ eps rounds reqIters fuel iter g best).1 := by
  induction fuel generalizing iter g best with
  | zero => exact h
  | succ fuel ih =>
    simp only [loLoop]
    split
    · exact h
    · exact ih _ _ _ (foldl_candidates_inv ker N τ eps rounds _ best h)

/-- The conversion back from a BGR matrix never changes the alpha channel of
any pixel of the destination image. -/
lemma alpha_cvMat (matIn : CvMatBGR) (img : Image) (row col : Nat) :
    ((cvMatBGRToImageRGBA matIn img).pix row col).a = (img.pix row col).a := by
  simp only [cvMatBGRToImageRGBA]
  split <;> rfl

/-! ### Claim theorems -/

/-- C1: for every model, inlier index list, and epsilon, `computeWeights`
assigns to the `i`-th inlier `idx` the weight `1 / max(eps, Error(idx, model))^2`;
for positive epsilon the squared floor is nonzero, so the division is never by
zero, and the default epsilon `0.001` is positive. -/
theorem computeWeights_spec {M : Type} (Error : Nat → M → ℚ) (model : M)
    (inliers : List Nat) (eps : ℚ) (i idx : Nat) (h : inliers[i]? = some idx) :
    (computeWeights Error model inliers eps)[i]?
      = some (1 / max eps (Error idx model) ^ 2)
    ∧ (0 < eps → max eps (Error idx model) ^ 2 ≠ 0)
    ∧ 0 < defaultEps := by
  refine ⟨?_, ?_, by norm_num [defaultEps]⟩
  · simp [computeWeights, h]
  · intro he
    exact ne_of_gt (pow_pos (lt_of_lt_of_le he (le_max_left _ _)) 2)

/-- Witness for C1 at a concrete inlier list and the default epsilon. -/
theorem computeWeights_spec_witness :
    (computeWeights testError (0 : ℚ) [2] defaultEps)[0]?
      = some (1 / max defaultEps (testError 2 0) ^ 2)
    ∧ (0 < defaultEps → max defaultEps (testError 2 0) ^ 2 ≠ 0)
    ∧ 0 < defaultEps :=
  computeWeights_spec testError 0 [2] defaultEps 0 2 rfl

/-- C5: the weight vector produced by `computeWeights` has the length of the
inlier list, and every weight in it is non-negative. -/
theorem computeWeights_shape {M : Type} (Error : Nat → M → ℚ) (model : M)
    (inliers : List Nat) (eps : ℚ) :
    (computeWeights Error model inliers eps).length = inliers.length
    ∧ ∀ w ∈ computeWeights Error model inliers eps, 0 ≤ w := by
  constructor
  · simp [computeWeights]
  · intro w hw
    simp only [computeWeights, List.mem_map] at hw
    obtain ⟨idx, _, rfl⟩ := hw
    exact one_div_nonneg.mpr (sq_nonneg _)

/-- Witness for C5 at a concrete inlier list. -/
theorem computeWeights_shape_witness :
    (computeWeights testError (0 : ℚ) [1, 2] defaultEps).length = [1, 2].length
    ∧ 0 ≤ (1 / max defaultEps (testError 2 0) ^ 2 : ℚ) :=
  ⟨(computeWeights_shape testError 0 [1, 2] defaultEps).1,
    (computeWeights_shape testError 0 [1, 2] defaultEps).2
      (1 / max defaultEps (testError 2 0) ^ 2)
      (by exact List.mem_map.2 ⟨2, by simp, rfl⟩)⟩

/-- C6: whenever `FitLS` is called with a sample of size at least
`MINIMUM_LSSAMPLES`, its internal assertion `samples.size() >= MINIMUM_SAMPLES`
holds (both constants are 2 for this kernel), so the assertion-failure branch
is unreachable and the solver is reached. -/
theorem fitLS_assert_unreachable {M : Type} (solve : List Nat → Option (List ℚ) → M)
    (samples : List Nat) (weights : Option (List ℚ))
    (h : MINIMUM_LSSAMPLES ≤ samples.length) :
    FitLS solve samples weights = some (solve samples weights) := by
  have h2 : MINIMUM_SAMPLES ≤ samples.length := by
    simpa [MINIMUM_SAMPLES, MINIMUM_LSSAMPLES] using h
  simp [FitLS, h2]

/-- Witness for C6 at a concrete two-element sample. -/
theorem fitLS_assert_unreachable_witness :
    FitLS (fun _ _ => (0 : ℚ)) [0, 1] none = some 0 :=
  fitLS_assert_unreachable (fun _ _ => (0 : ℚ)) [0, 1] none (by decide)

/-- C4: whenever the estimate call succeeds, the returned inlier-index set is
exactly the set of indices `i` in `[0, N)` with `Error(i, bestModel) ≤ τ`:
every returned index is in range and satisfies the bound, and an in-range
index is returned iff it satisfies the bound. -/
theorem estimate_inlier_exact {M : Type} (ker : Kernel M) (N : Nat) (τ : ℚ)
    (g : Rng) (maxIterations : Nat) (reqIters : Nat → Nat) (eps : ℚ) (rounds : Nat)
    (m : M) (inl : List Nat)
    (h : estimate ker N τ g maxIterations reqIters eps rounds = .ok (m, inl)) :
    (∀ i ∈ inl, i < N) ∧ ∀ i, i < N → (i ∈ inl ↔ ker.Error i m ≤ τ) := by
  have hbest := loLoop_inv ker N τ eps rounds reqIters maxIterations 0 g none trivial
  unfold estimate at h
  by_cases hN : N < ker.minSamples
  · rw [if_pos hN] at h
    exact absurd h (by simp)
  · rw [if_neg hN] at h
    rcases hE : (loLoop ker N τ eps rounds reqIters maxIterations 0 g none).1 with _ | p
    · rw [hE] at h
      exact absurd h (by simp)
    · rw [hE] at h
      rw [hE] at hbest
      simp only [Except.ok.injEq] at h
      have hinl : inl = inliersOf ker N τ m := by
        have := hbest
        rw [h] at this
        exact this
      constructor
      · intro i hi
        exact ((mem_inliersOf ker N τ m i).1 (hinl ▸ hi)).1
      · intro i hiN
        rw [hinl, mem_inliersOf]
        exact ⟨fun hh => hh.2, fun hh => ⟨hiN, hh⟩⟩

/-- Witness for C4 at a concrete run of the engine on the constant-fitting
kernel (which returns model 0 with inliers `[0, 1, 3]`). -/
theorem estimate_inlier_exact_witness :
    0 ∈ ([0, 1, 3] : List Nat) ↔ testKernel.Error 0 (0 : ℚ) ≤ 0 :=
  (estimate_inlier_exact testKernel 4 0 testRng 2 (fun _ => 100) defaultEps 1 0 [0, 1, 3]
    (by decide)).2 0 (by decide)

/-- C7: if `N < kernel.MINIMUM_SAMPLES` the estimate call fails with
`InsufficientDataError` and produces no partial result, and the Random
Sampler fails with `InsufficientDataError` whenever asked for `k > N`
distinct indices. -/
theorem estimate_insufficient_data {M : Type} (ker : Kernel M) (N k : Nat) (τ : ℚ)
    (g : Rng) (maxIterations : Nat) (reqIters : Nat → Nat) (eps : ℚ) (rounds : Nat) :
    (N < ker.minSamples →
      estimate ker N τ g maxIterations reqIters eps rounds = .error .insufficientData)
    ∧ (N < k → Sample N k g = .error .insufficientData) := by
  constructor
  · intro h
    simp [estimate, h]
  · intro h
    simp [Sample, h]

/-- Witness for C7: a zero-observation estimate call and a 2-from-1 sampler
call both fail with `insufficientData`. -/
theorem estimate_insufficient_data_witness :
    estimate testKernel 0 1 testRng 2 (fun _ => 100) defaultEps 1
      = .error .insufficientData
    ∧ Sample 1 2 testRng = .error .insufficientData :=
  ⟨(estimate_insufficient_data testKernel 0 2 1 testRng 2 (fun _ => 100) defaultEps 1).1
      (by decide),
    (estimate_insufficient_data testKernel 1 2 1 testRng 2 (fun _ => 100) defaultEps 1).2
      (by decide)⟩

/-- C8: for a fixed observation set, kernel, threshold, and initial
random-generator state, two runs of the estimate call return identical
results — the computation is a deterministic function of its inputs. -/
theorem estimate_deterministic {M : Type} (ker : Kernel M) (N : Nat) (τ : ℚ)
    (g1 g2 : Rng) (maxIterations : Nat) (reqIters : Nat → Nat) (eps : ℚ)
    (rounds : Nat) (h : g1 = g2) :
    estimate ker N τ g1 maxIterations reqIters eps rounds
      = estimate ker N τ g2 maxIterations reqIters eps rounds := by
  rw [h]

/-- Witness for C8 at the concrete test run. -/
theorem estimate_deterministic_witness :
    estimate testKernel 4 1 testRng 2 (fun _ => 100) defaultEps 1
      = estimate testKernel 4 1 testRng 2 (fun _ => 100) defaultEps 1 :=
  estimate_deterministic testKernel 4 1 testRng testRng 2 (fun _ => 100) defaultEps 1 rfl

/-- C9: `processImage` with default-constructed `ProcessingParams` returns
the input image unchanged (hence same width, height, and pixels), and
`medianFilter` values 0, 1 and 2 all leave the image unchanged since the
median stage only runs when `medianFilter >= 3`. -/
theorem processImage_default_id (ops : ExternalOps) (img : Image) (m : Int)
    (hm : m = 0 ∨ m = 1 ∨ m = 2) :
    processImage ops defaultParams img = img
    ∧ processImage ops { defaultParams with medianFilter := m } img = img := by
  have h3 : ¬ (3 ≤ m) := by rcases hm with h | h | h <;> subst h <;> decide
  constructor
  · simp [processImage, defaultParams]
  · simp [processImage, defaultParams, h3]

/-- Witness for C9 at a concrete image and filter set with `medianFilter = 2`. -/
theorem processImage_default_id_witness :
    processImage testOps defaultParams testImg = testImg
    ∧ processImage testOps { defaultParams with medianFilter := 2 } testImg = testImg :=
  processImage_default_id testOps testImg 2 (by decide)

/-- C10: the conversion back from a BGR matrix writes every pixel with the
alpha value the destination image already held there, and consequently with
bilateral filter and/or CLAHE enabled (the other stages disabled)
`processImage` leaves the alpha channel of every pixel unchanged. -/
theorem opencv_stages_preserve_alpha (ops : ExternalOps) (p : ProcessingParams)
    (img : Image) (matIn : CvMatBGR) (row col : Nat)
    (h1 : p.scaleFactor = 1) (h2 : p.contrast = 1) (h3 : p.medianFilter < 3)
    (h4 : p.sharpenEnabled = false) (h5 : p.fillHoles = false) :
    ((cvMatBGRToImageRGBA matIn img).pix row col).a = (img.pix row col).a
    ∧ ((processImage ops p img).pix row col).a = (img.pix row col).a := by
  refine ⟨alpha_cvMat matIn img row col, ?_⟩
  have h3n : ¬ (3 ≤ p.medianFilter) := by omega
  by_cases hb : p.bilateralEnabled <;> by_cases hc : p.claheEnabled <;>
    simp [processImage, h1, h2, h3n, h4, h5, hb, hc, alpha_cvMat]

/-- Witness for C10 at a concrete image with both OpenCV stages enabled. -/
theorem opencv_stages_preserve_alpha_witness :
    ((cvMatBGRToImageRGBA testMat testImg).pix 0 0).a = (testImg.pix 0 0).a
    ∧ ((processImage testOps testCvParams testImg).pix 0 0).a = (testImg.pix 0 0).a :=
  opencv_stages_preserve_alpha testOps testCvParams testImg testMat 0 0 rfl rfl
    (by decide) rfl rfl

end AliceVisionProof
